import Mathlib

/-
Shallow embedding of the benchmark harness in src/cpp/src/main.cpp.

The file system is modelled purely: a file is `Option` of its content
(`none` = the path does not exist / cannot be opened).  Environment
effects that the code merely consumes (the sort capability std::sort,
the monotonic clock, the wall-clock timestamp, per-call writability of
the output CSV) are oracle parameters.  Machine ints are Int/Nat with
explicit two's-complement conversion where the code reinterprets bytes.
-/

namespace BenchCpp

set_option maxRecDepth 40000

/-- The usage block printed by usage_and_exit (raw string in main.cpp). -/
def usageText : String :=
  "Usage:\n  bench_cpp --dataset <path> [--algo builtin] [--warmup N] [--reps N] [--out <csv>] [--no-validate]\n\nExample:\n  bench_cpp --dataset datasets/ints/random_n100000_seed1.bin --warmup 5 --reps 30 --out results/raw.csv\n"

/-- Characters of the base file name: the component after the last path
separator, mirroring fs::path(p).filename() on POSIX paths. -/
def basenameChars (p : String) : List Char :=
  ((p.toList.reverse.takeWhile (fun c => c ≠ '/')).reverse)

/-- Boolean list-prefix test (a match of the pattern at one position of
std::string::find). -/
def isPrefixList : List Char → List Char → Bool
  | [], _ => true
  | _ :: _, [] => false
  | a :: as, b :: bs => a == b && isPrefixList as bs

/-- Index of the first occurrence of the pattern, as std::string::find
(npos becomes none). -/
def findSubstr (pat : List Char) : List Char → Option Nat
  | [] => if isPrefixList pat [] then some 0 else none
  | c :: rest =>
    if isPrefixList pat (c :: rest) then some 0
    else (findSubstr pat rest).map (fun i => i + 1)

/-- infer_distribution from main.cpp: base name, first occurrence of the
literal "_n", the prefix before it, "unknown" when absent. -/
def infer_distribution (dataset_path : String) : String :=
  let base := basenameChars dataset_path
  match findSubstr ['_', 'n'] base with
  | none => "unknown"
  | some pos => String.mk (base.take pos)

/-- is_sorted_non_decreasing from main.cpp: adjacent-pair check
a[i] <= a[i+1] over the whole vector. -/
def is_sorted_non_decreasing : List Int → Bool
  | [] => true
  | [_] => true
  | x :: y :: rest => decide (x ≤ y) && is_sorted_non_decreasing (y :: rest)

/-- The two error families of the load path: runtime_error messages that
the spec taxonomy classifies as IOError resp. FormatError. -/
inductive LoadError where
  | ioError (msg : String)
  | formatError (msg : String)
deriving DecidableEq, Repr

/-- Message carried by a load error (what e.what() yields in main's catch). -/
def loadErrorMsg : LoadError → String
  | .ioError m => m
  | .formatError m => m

/-- Little-endian value of a byte list (each byte reduced mod 256, the
value range of an octet). -/
def bytesToNatLE : List Nat → Nat
  | [] => 0
  | b :: rest => b % 256 + 256 * bytesToNatLE rest

/-- Reinterpret an unsigned 32-bit value as two's-complement signed, the
way read_bin_int32_le's buffer is reinterpreted as int32_t elements. -/
def toSigned32 (u : Nat) : Int :=
  if u % 4294967296 < 2147483648 then ((u % 4294967296 : Nat) : Int)
  else ((u % 4294967296 : Nat) : Int) - 4294967296

/-- Decode consecutive 4-byte groups as little-endian int32 values (the
payload buffer of read_bin_int32_le, in file order). -/
def decode_int32s : List Nat → List Int
  | b0 :: b1 :: b2 :: b3 :: rest =>
      toSigned32 (bytesToNatLE [b0, b1, b2, b3]) :: decode_int32s rest
  | _ => []

/-- read_bin_int32_le from main.cpp over the pure file model: `none`
models an unopenable path; otherwise a 4-byte LE header n, exactly n*4
payload bytes, and a strict no-trailing-bytes check, with the same
failure order and messages as the source. -/
def read_bin_int32_le (path : String) (file : Option (List Nat)) : Except LoadError (List Int) :=
  match file with
  | none => .error (.ioError ("Failed to open: " ++ path))
  | some bytes =>
    if bytes.length < 4 then .error (.ioError ("Failed to read header from: " ++ path))
    else
      let n := bytesToNatLE (bytes.take 4)
      let payload := bytes.drop 4
      if payload.length < n * 4 then .error (.ioError ("Failed to read payload from: " ++ path))
      else if n * 4 < payload.length then .error (.formatError ("File has extra trailing bytes: " ++ path))
      else .ok (decode_int32s payload)

/-- The fixed CSV header row written by append_row when the file does not
yet exist. -/
def headerLine : String :=
  "timestamp_iso,task,language,language_version,algo,dataset_file,distribution,n,warmup_runs,rep_idx,time_ms,ok"

/-- Comma-join of a row, mirroring the output loops of append_row and
main (a separator before every cell but the first; no quoting). -/
def joinComma : List String → String
  | [] => ""
  | s :: rest => rest.foldl (fun acc cell => acc ++ "," ++ cell) s

/-- append_row from main.cpp over the pure file model (`none` = the file
is absent at the moment of the call): the header is written iff the file
is absent, then the comma-joined row; returns the lines after the append. -/
def append_row (file : Option (List String)) (row : List String) : List String :=
  match file with
  | none => [headerLine, joinComma row]
  | some lines => lines ++ [joinComma row]

/-- Iterated append_row calls against one path, threading the file state. -/
def appendAll (file : Option (List String)) : List (List String) → Option (List String)
  | [] => file
  | row :: rest => appendAll (some (append_row file row)) rest

/-- Stream rendering of time_ms: std::fixed with setprecision(3).
Modelled for the nonnegative values a monotonic clock difference yields;
the rounding of the binary double is approximated as round-half-up. -/
def fmtFixed3 (v : ℚ) : String :=
  let m : Nat := (Int.floor (v * 1000 + 1 / 2)).toNat
  toString (m / 1000) ++ "." ++
    String.mk [Nat.digitChar (m / 100 % 10), Nat.digitChar (m / 10 % 10), Nat.digitChar (m % 10)]

/-- The row vector built per measured repetition in main, in source
order: timestamp, task, language, language_version, algo, dataset_file,
distribution, n, warmup_runs, rep_idx, time_ms, ok. -/
def mkRow (ts algo dataset dist : String) (n : Nat) (warmup : Int) (rep : Nat)
    (time_ms : ℚ) (ok : Bool) : List String :=
  [ts, "sort", "cpp", "c++20", algo, dataset, dist, toString n, toString warmup,
    toString rep, fmtFixed3 time_ms, if ok then "true" else "false"]

/-- The Args structure of main.cpp with its field defaults. -/
structure Args where
  dataset : String := ""
  algo : String := "builtin"
  warmup : Int := 5
  reps : Int := 30
  out : String := "results/raw.csv"
  validate : Bool := true
deriving DecidableEq, Repr

/-- C isspace characters that std::stoi skips before the number. -/
def isSpaceChar (c : Char) : Bool :=
  c == ' ' || c == '\t' || c == '\n' || c == Char.ofNat 11 || c == Char.ofNat 12 || c == '\r'

/-- std::stoi (base 10): optional whitespace and sign, a nonempty digit
run, value required to fit in a 32-bit int; `none` models the thrown
invalid_argument / out_of_range. -/
def stoi? (s : String) : Option Int :=
  let cs := s.toList.dropWhile isSpaceChar
  let signAndRest : Bool × List Char :=
    match cs with
    | '-' :: r => (true, r)
    | '+' :: r => (false, r)
    | r => (false, r)
  let digits := signAndRest.2.takeWhile Char.isDigit
  if digits = [] then none
  else
    let mag : Nat := digits.foldl (fun acc c => 10 * acc + (c.toNat - 48)) 0
    let v : Int := if signAndRest.1 then -(mag : Int) else (mag : Int)
    if v < -2147483648 ∨ 2147483647 < v then none else some v

/-- Outcome of parse_args: a valid Args, a direct std::exit(2) with the
lines printed to stderr, or a std::stoi exception that propagates to
main's catch handler. -/
inductive ParseOutcome where
  | ok (a : Args)
  | exit2 (stderrLines : List String)
  | stoiFail
deriving DecidableEq, Repr

/-- The flag-dispatch loop of parse_args followed by its post-loop
checks (required dataset, warmup/reps ranges, supported algo).  A flag
at the end of argv with no following value is usage_and_exit; a stoi
failure on a numeric value is an exception, not an exit(2). -/
def parseLoop (a : Args) : List String → ParseOutcome
  | [] =>
    if a.dataset = "" then .exit2 ["--dataset is required", usageText]
    else if a.warmup < 0 ∨ a.reps ≤ 0 then .exit2 ["warmup must be >= 0 and reps must be > 0"]
    else if a.algo ≠ "builtin" then .exit2 ["only --algo builtin is supported right now"]
    else .ok a
  | arg :: rest =>
    if arg = "--dataset" then
      match rest with
      | [] => .exit2 [usageText]
      | v :: r => parseLoop { a with dataset := v } r
    else if arg = "--algo" then
      match rest with
      | [] => .exit2 [usageText]
      | v :: r => parseLoop { a with algo := v } r
    else if arg = "--warmup" then
      match rest with
      | [] => .exit2 [usageText]
      | v :: r =>
        match stoi? v with
        | none => .stoiFail
        | some k => parseLoop { a with warmup := k } r
    else if arg = "--reps" then
      match rest with
      | [] => .exit2 [usageText]
      | v :: r =>
        match stoi? v with
        | none => .stoiFail
        | some k => parseLoop { a with reps := k } r
    else if arg = "--out" then
      match rest with
      | [] => .exit2 [usageText]
      | v :: r => parseLoop { a with out := v } r
    else if arg = "--no-validate" then parseLoop { a with validate := false } rest
    else .exit2 ["Unknown arg: " ++ arg, usageText]

/-- parse_args from main.cpp on argv[1:], starting from default Args. -/
def parse_args (argv : List String) : ParseOutcome :=
  parseLoop {} argv

/-- Environment facts main merely consumes: the std::sort capability,
the monotonic clock reading (elapsed ms of the rep-th measured sort),
the wall-clock timestamp per measured rep, the dataset file content,
and whether the rep-th append to the output CSV succeeds. -/
structure Oracles where
  sortFn : List Int → List Int
  clock : Nat → ℚ
  timestampAt : Nat → String
  fileBytes : Option (List Nat)
  outOk : Nat → Bool

/-- Mutable state of main's loops: the loaded values vector, the lines
printed to stdout, the output CSV file, and (as an observation point)
the scratch copies handed to the sort capability, in call order. -/
structure St where
  vals : List Int
  stdoutLines : List String
  file : Option (List String)
  sortCalls : List (List Int)
deriving DecidableEq, Repr

/-- The warmup loop of main: each iteration copies values into a fresh
tmp and sorts the copy; nothing is timed, printed, or appended. -/
def runWarmup (o : Oracles) : Nat → St → St
  | 0, st => st
  | Nat.succ w, st =>
    let tmp := st.vals
    let _sorted := o.sortFn tmp
    runWarmup o w { st with sortCalls := st.sortCalls ++ [tmp] }

/-- The row one measured repetition builds from a scratch copy tmp:
sort it, validate the sorted copy when enabled (ok is true
unconditionally when disabled), and assemble the row. -/
def measuredRow (a : Args) (o : Oracles) (dist : String) (n : Nat)
    (tmp : List Int) (rep : Nat) : List String :=
  let sorted := o.sortFn tmp
  let ok := if a.validate then is_sorted_non_decreasing sorted else true
  mkRow (o.timestampAt rep) a.algo a.dataset dist n a.warmup rep (o.clock rep) ok

/-- The measured loop of main: per repetition, copy values into a fresh
tmp, build the row, print it to stdout, then append it to the CSV; an
append failure throws, aborting the loop with the message main's catch
handler will print. -/
def runReps (a : Args) (o : Oracles) (dist : String) (n : Nat) :
    Nat → Nat → St → St × Option String
  | _, 0, st => (st, none)
  | rep, Nat.succ r, st =>
    let tmp := st.vals
    let row := measuredRow a o dist n tmp rep
    let st1 : St := { st with stdoutLines := st.stdoutLines ++ [joinComma row],
                              sortCalls := st.sortCalls ++ [tmp] }
    if o.outOk rep then
      runReps a o dist n (rep + 1) r { st1 with file := some (append_row st1.file row) }
    else (st1, some ("Failed to open output CSV: " ++ a.out))

/-- Observable result of one process invocation: exit code, stdout and
stderr lines, the output CSV content, the values vector at process end,
and the scratch copies handed to the sort capability. -/
structure MainResult where
  exitCode : Nat
  stdoutLines : List String
  stderrLines : List String
  logFile : Option (List String)
  finalValues : List Int
  sortCalls : List (List Int)
deriving DecidableEq, Repr

/-- main from main.cpp: parse args (a direct exit(2) bypasses the catch
handler, a stoi exception reaches it), load the dataset, run warmup then
the measured loop; any exception yields exit code 1 with an Error line. -/
def mainRun (argv : List String) (o : Oracles) (initFile : Option (List String)) : MainResult :=
  match parse_args argv with
  | .exit2 errs => ⟨2, [], errs, initFile, [], []⟩
  | .stoiFail => ⟨1, [], ["Error: stoi"], initFile, [], []⟩
  | .ok a =>
    match read_bin_int32_le a.dataset o.fileBytes with
    | .error e => ⟨1, [], ["Error: " ++ loadErrorMsg e], initFile, [], []⟩
    | .ok values =>
      let n := values.length
      let dist := infer_distribution a.dataset
      let st0 : St := ⟨values, [], initFile, []⟩
      let st1 := runWarmup o a.warmup.toNat st0
      match runReps a o dist n 0 a.reps.toNat st1 with
      | (st2, none) => ⟨0, st2.stdoutLines, [], st2.file, st2.vals, st2.sortCalls⟩
      | (st2, some m) => ⟨1, st2.stdoutLines, ["Error: " ++ m], st2.file, st2.vals, st2.sortCalls⟩

/-- The pattern occurs at index i of s (a successful std::string::find match). -/
def occursAt (pat s : List Char) (i : Nat) : Prop :=
  isPrefixList pat (s.drop i) = true

/-! Concrete inputs used by the witness theorems. -/

/-- Sample environment: identity stands in for the sort capability, the
clock always reads 2.5 ms, the dataset file holds n=2 with payload 5, 3,
and every CSV append succeeds. -/
def sampleOracle : Oracles :=
  ⟨fun l => l, fun _ => 5 / 2, fun _ => "2026-01-01T00:00:00",
   some [2, 0, 0, 0, 5, 0, 0, 0, 3, 0, 0, 0], fun _ => true⟩

/-- Sample environment whose second CSV append fails. -/
def failOracle : Oracles :=
  ⟨fun l => l, fun _ => 5 / 2, fun _ => "2026-01-01T00:00:00",
   some [2, 0, 0, 0, 5, 0, 0, 0, 3, 0, 0, 0], fun k => decide (k ≠ 1)⟩

/-- Sample command line: 2 warmups, 3 measured repetitions. -/
def sampleArgv : List String := ["--dataset", "x_n2.bin", "--warmup", "2", "--reps", "3"]

/-- The Args value sampleArgv parses to. -/
def sampleArgs : Args := { dataset := "x_n2.bin", warmup := 2, reps := 3 }

/-! Characterization lemmas for the embedded operations. -/

theorem append_row_none (row : List String) :
    append_row none row = [headerLine, joinComma row] := rfl

theorem append_row_some (lines : List String) (row : List String) :
    append_row (some lines) row = lines ++ [joinComma row] := rfl

theorem appendAll_some (rows : List (List String)) :
    ∀ (ls : List String), appendAll (some ls) rows = some (ls ++ rows.map joinComma) := by
  induction rows with
  | nil => intro ls; simp [appendAll]
  | cons row rest ih =>
    intro ls
    rw [appendAll, append_row_some, ih]
    simp

theorem appendAll_none_cons (row : List String) (rows : List (List String)) :
    appendAll none (row :: rows) = some (headerLine :: (row :: rows).map joinComma) := by
  rw [appendAll, append_row_none, appendAll_some]
  simp

theorem runWarmup_eq (o : Oracles) (w : Nat) (st : St) :
    runWarmup o w st = { st with sortCalls := st.sortCalls ++ List.replicate w st.vals } := by
  induction w generalizing st with
  | zero => simp [runWarmup]
  | succ w ih =>
    rw [runWarmup, ih]
    simp [List.replicate_succ]

theorem runReps_ok (a : Args) (o : Oracles) (dist : String) (n : Nat) :
    ∀ (r rep : Nat) (st : St),
    (∀ j, j < r → o.outOk (rep + j) = true) →
    runReps a o dist n rep r st =
      ({ vals := st.vals,
         stdoutLines := st.stdoutLines ++
           (List.range' rep r).map (fun k => joinComma (measuredRow a o dist n st.vals k)),
         file := appendAll st.file ((List.range' rep r).map (measuredRow a o dist n st.vals)),
         sortCalls := st.sortCalls ++ List.replicate r st.vals }, none) := by
  intro r
  induction r with
  | zero =>
    intro rep st _
    simp [runReps, appendAll]
  | succ r ih =>
    intro rep st hok
    have h0 : o.outOk rep = true := by simpa using hok 0 (Nat.succ_pos r)
    have hok' : ∀ j, j < r → o.outOk (rep + 1 + j) = true := by
      intro j hj
      have e : rep + 1 + j = rep + (j + 1) := by omega
      rw [e]
      exact hok (j + 1) (by omega)
    rw [runReps]
    simp only [h0, if_true]
    rw [ih (rep + 1) _ hok']
    simp [List.range'_succ, List.replicate_succ, appendAll]

theorem runReps_fail (a : Args) (o : Oracles) (dist : String) (n : Nat) :
    ∀ (k r rep : Nat) (st : St),
    k < r →
    (∀ j, j < k → o.outOk (rep + j) = true) →
    o.outOk (rep + k) = false →
    runReps a o dist n rep r st =
      ({ vals := st.vals,
         stdoutLines := st.stdoutLines ++
           (List.range' rep (k + 1)).map (fun j => joinComma (measuredRow a o dist n st.vals j)),
         file := appendAll st.file ((List.range' rep k).map (measuredRow a o dist n st.vals)),
         sortCalls := st.sortCalls ++ List.replicate (k + 1) st.vals },
       some ("Failed to open output CSV: " ++ a.out)) := by
  intro k
  induction k with
  | zero =>
    intro r rep st hkr _ hfail
    obtain ⟨r', rfl⟩ : ∃ r', r = r' + 1 := ⟨r - 1, by omega⟩
    rw [runReps]
    simp only [Nat.add_zero] at hfail
    simp [hfail, appendAll, List.range'_succ]
  | succ k ih =>
    intro r rep st hkr hok hfail
    obtain ⟨r', rfl⟩ : ∃ r', r = r' + 1 := ⟨r - 1, by omega⟩
    have h0 : o.outOk rep = true := by simpa using hok 0 (Nat.succ_pos k)
    have hok' : ∀ j, j < k → o.outOk (rep + 1 + j) = true := by
      intro j hj
      have e : rep + 1 + j = rep + (j + 1) := by omega
      rw [e]
      exact hok (j + 1) (by omega)
    have hfail' : o.outOk (rep + 1 + k) = false := by
      have e : rep + 1 + k = rep + (k + 1) := by omega
      rw [e]
      exact hfail
    rw [runReps]
    simp only [h0, if_true]
    rw [ih r' (rep + 1) _ (by omega) hok' hfail']
    simp [List.range'_succ, List.replicate_succ, appendAll]

set_option maxRecDepth 4000 in
theorem mainRun_success (argv : List String) (o : Oracles) (initFile : Option (List String))
    (a : Args) (values : List Int)
    (hp : parse_args argv = .ok a)
    (hl : read_bin_int32_le a.dataset o.fileBytes = .ok values)
    (hok : ∀ j, j < a.reps.toNat → o.outOk j = true) :
    mainRun argv o initFile =
      { exitCode := 0,
        stdoutLines := (List.range a.reps.toNat).map
          (fun k => joinComma (measuredRow a o (infer_distribution a.dataset) values.length values k)),
        stderrLines := [],
        logFile := appendAll initFile
          ((List.range a.reps.toNat).map (measuredRow a o (infer_distribution a.dataset) values.length values)),
        finalValues := values,
        sortCalls := List.replicate (a.warmup.toNat + a.reps.toNat) values } := by
  have hok0 : ∀ j, j < a.reps.toNat → o.outOk (0 + j) = true := by
    intro j hj
    simpa using hok j hj
  simp only [mainRun, hp, hl]
  rw [runWarmup_eq, runReps_ok a o _ _ a.reps.toNat 0 _ hok0]
  simp only [List.range_eq_range', List.nil_append, List.append_nil, List.replicate_add]

set_option maxRecDepth 4000 in
theorem mainRun_appendFail (argv : List String) (o : Oracles) (initFile : Option (List String))
    (a : Args) (values : List Int) (k : Nat)
    (hp : parse_args argv = .ok a)
    (hl : read_bin_int32_le a.dataset o.fileBytes = .ok values)
    (hk : k < a.reps.toNat)
    (hok : ∀ j, j < k → o.outOk j = true)
    (hfail : o.outOk k = false) :
    mainRun argv o initFile =
      { exitCode := 1,
        stdoutLines := (List.range (k + 1)).map
          (fun j => joinComma (measuredRow a o (infer_distribution a.dataset) values.length values j)),
        stderrLines := ["Error: " ++ ("Failed to open output CSV: " ++ a.out)],
        logFile := appendAll initFile
          ((List.range k).map (measuredRow a o (infer_distribution a.dataset) values.length values)),
        finalValues := values,
        sortCalls := List.replicate (a.warmup.toNat + (k + 1)) values } := by
  have hok0 : ∀ j, j < k → o.outOk (0 + j) = true := by
    intro j hj
    simpa using hok j hj
  have hfail0 : o.outOk (0 + k) = false := by simpa using hfail
  simp only [mainRun, hp, hl]
  rw [runWarmup_eq, runReps_fail a o _ _ k a.reps.toNat 0 _ hk hok0 hfail0]
  simp only [List.range_eq_range', List.nil_append, List.append_nil, List.replicate_add]

theorem mainRun_exit2 (argv : List String) (o : Oracles) (initFile : Option (List String))
    (msgs : List String) (hp : parse_args argv = .exit2 msgs) :
    mainRun argv o initFile = ⟨2, [], msgs, initFile, [], []⟩ := by
  simp only [mainRun, hp]

theorem mainRun_stoiFail (argv : List String) (o : Oracles) (initFile : Option (List String))
    (hp : parse_args argv = .stoiFail) :
    mainRun argv o initFile = ⟨1, [], ["Error: stoi"], initFile, [], []⟩ := by
  simp only [mainRun, hp]

theorem parseLoop_nil_ok (a b : Args) (h : parseLoop a [] = .ok b) :
    b.dataset ≠ "" ∧ 0 ≤ b.warmup ∧ 0 < b.reps ∧ b.algo = "builtin" := by
  simp only [parseLoop] at h
  split_ifs at h with h1 h2 h3
  obtain rfl : a = b := by simpa using h
  push_neg at h2
  exact ⟨h1, by omega, by omega, not_not.mp h3⟩

theorem parseLoop_ok_invAux : ∀ (n : Nat) (l : List String), l.length ≤ n → ∀ (a b : Args),
    parseLoop a l = .ok b →
    b.dataset ≠ "" ∧ 0 ≤ b.warmup ∧ 0 < b.reps ∧ b.algo = "builtin" := by
  intro n
  induction n with
  | zero =>
    intro l hl a b h
    have : l = [] := List.eq_nil_of_length_eq_zero (Nat.le_zero.mp hl)
    subst this
    exact parseLoop_nil_ok a b h
  | succ n ih =>
    intro l hl a b h
    cases l with
    | nil => exact parseLoop_nil_ok a b h
    | cons arg rest =>
      have hrest : rest.length ≤ n := by
        simp only [List.length_cons] at hl
        omega
      cases rest with
      | nil =>
        simp only [parseLoop] at h
        split_ifs at h with f1 f2 f3 f4 f5 f6 hd hw ha
        obtain rfl : ({ a with validate := false } : Args) = b := by simpa using h
        push_neg at hw
        exact ⟨hd, hw.1, hw.2, not_not.mp ha⟩
      | cons v r =>
        have hr : r.length ≤ n := by
          simp only [List.length_cons] at hrest
          omega
        simp only [parseLoop] at h
        split_ifs at h with h1 h2 h3 h4 h5 h6
        · exact ih r hr _ b h
        · exact ih r hr _ b h
        · cases hs : stoi? v with
          | none => simp [hs] at h
          | some kk =>
            simp only [hs] at h
            exact ih r hr _ b h
        · cases hs : stoi? v with
          | none => simp [hs] at h
          | some kk =>
            simp only [hs] at h
            exact ih r hr _ b h
        · exact ih r hr _ b h
        · exact ih (v :: r) hrest _ b h

theorem parse_args_ok_inv (argv : List String) (a : Args) (h : parse_args argv = .ok a) :
    a.dataset ≠ "" ∧ 0 ≤ a.warmup ∧ 0 < a.reps ∧ a.algo = "builtin" :=
  parseLoop_ok_invAux argv.length argv le_rfl {} a h

theorem decode_int32s_cons (b0 b1 b2 b3 : Nat) (rest : List Nat) :
    decode_int32s (b0 :: b1 :: b2 :: b3 :: rest) =
      toSigned32 (bytesToNatLE [b0, b1, b2, b3]) :: decode_int32s rest := rfl

theorem decode_int32s_length_aux : ∀ (n : Nat) (l : List Nat), l.length ≤ n →
    (decode_int32s l).length = l.length / 4 := by
  intro n
  induction n with
  | zero =>
    intro l hl
    have : l = [] := List.eq_nil_of_length_eq_zero (Nat.le_zero.mp hl)
    subst this
    rfl
  | succ n ih =>
    intro l hl
    rcases l with _ | ⟨a, _ | ⟨b, _ | ⟨c, _ | ⟨d, rest⟩⟩⟩⟩
    · rfl
    · simp [decode_int32s]
    · simp [decode_int32s]
    · simp [decode_int32s]
    · have hrest : rest.length ≤ n := by
        simp only [List.length_cons] at hl
        omega
      rw [decode_int32s_cons]
      simp only [List.length_cons]
      rw [ih rest hrest]
      omega

theorem decode_int32s_length (l : List Nat) : (decode_int32s l).length = l.length / 4 :=
  decode_int32s_length_aux l.length l le_rfl

theorem decode_int32s_getElem? : ∀ (i : Nat) (l : List Nat), 4 * (i + 1) ≤ l.length →
    (decode_int32s l)[i]? = some (toSigned32 (bytesToNatLE ((l.drop (4 * i)).take 4))) := by
  intro i
  induction i with
  | zero =>
    intro l hl
    rcases l with _ | ⟨a, _ | ⟨b, _ | ⟨c, _ | ⟨d, rest⟩⟩⟩⟩
    · simp only [List.length_nil] at hl; omega
    · simp only [List.length_cons, List.length_nil] at hl; omega
    · simp only [List.length_cons, List.length_nil] at hl; omega
    · simp only [List.length_cons, List.length_nil] at hl; omega
    · rw [decode_int32s_cons]
      simp only [List.getElem?_cons_zero, Nat.mul_zero, List.drop_zero]
      rfl
  | succ i ih =>
    intro l hl
    rcases l with _ | ⟨a, _ | ⟨b, _ | ⟨c, _ | ⟨d, rest⟩⟩⟩⟩
    · simp only [List.length_nil] at hl; omega
    · simp only [List.length_cons, List.length_nil] at hl; omega
    · simp only [List.length_cons, List.length_nil] at hl; omega
    · simp only [List.length_cons, List.length_nil] at hl; omega
    · have hrest : 4 * (i + 1) ≤ rest.length := by
        simp only [List.length_cons] at hl
        omega
      have e2 : 4 * (i + 1) = 4 * i + 4 := by omega
      have e4 : (a :: b :: c :: d :: rest).drop (4 * i + 4) = rest.drop (4 * i) := by
        rw [Nat.add_comm (4 * i) 4]
        exact (List.drop_drop (4 * i) 4 _).symm
      rw [decode_int32s_cons]
      simp only [List.getElem?_cons_succ]
      rw [ih rest hrest, e2, e4]

theorem findSubstr_some : ∀ (s pat : List Char) (i : Nat),
    findSubstr pat s = some i →
    occursAt pat s i ∧ ∀ j, j < i → ¬ occursAt pat s j := by
  intro s
  induction s with
  | nil =>
    intro pat i h
    simp only [findSubstr] at h
    split_ifs at h with hp
    · obtain rfl : i = 0 := by simpa using h.symm
      exact ⟨hp, by intro j hj; omega⟩
  | cons c rest ih =>
    intro pat i h
    simp only [findSubstr] at h
    split_ifs at h with hp
    · obtain rfl : i = 0 := by simpa using h.symm
      exact ⟨hp, by intro j hj; omega⟩
    · cases hf : findSubstr pat rest with
      | none => rw [hf] at h; simp at h
      | some i2 =>
        rw [hf] at h
        simp only [Option.map_some'] at h
        obtain rfl : i = i2 + 1 := by simpa using h.symm
        obtain ⟨hpre, hmin⟩ := ih pat i2 hf
        refine ⟨hpre, ?_⟩
        intro j hj
        cases j with
        | zero => simpa [occursAt] using hp
        | succ j2 => simpa [occursAt] using hmin j2 (by omega)

theorem findSubstr_none : ∀ (s pat : List Char),
    findSubstr pat s = none → ∀ j, ¬ occursAt pat s j := by
  intro s
  induction s with
  | nil =>
    intro pat h j
    simp only [findSubstr] at h
    split_ifs at h with hp
    simpa [occursAt, List.drop_nil] using hp
  | cons c rest ih =>
    intro pat h j
    simp only [findSubstr] at h
    split_ifs at h with hp
    cases hf : findSubstr pat rest with
    | some i2 => rw [hf] at h; simp at h
    | none =>
      cases j with
      | zero => simpa [occursAt] using hp
      | succ j2 => simpa [occursAt] using ih pat hf j2

theorem infer_distribution_of_some (p : String) (i : Nat)
    (h : findSubstr ['_', 'n'] (basenameChars p) = some i) :
    infer_distribution p = String.mk ((basenameChars p).take i) := by
  simp [infer_distribution, h]

theorem infer_distribution_of_none (p : String)
    (h : findSubstr ['_', 'n'] (basenameChars p) = none) :
    infer_distribution p = "unknown" := by
  simp [infer_distribution, h]

theorem digitChar_isDigit (d : Nat) (h : d < 10) : (Nat.digitChar d).isDigit = true := by
  interval_cases d <;> decide

theorem fmtFixed3_shape (v : ℚ) :
    ∃ fr : String,
      fmtFixed3 v = toString ((Int.floor (v * 1000 + 1 / 2)).toNat / 1000) ++ "." ++ fr ∧
      fr.length = 3 ∧ ∀ c ∈ fr.toList, c.isDigit = true := by
  refine ⟨String.mk [Nat.digitChar ((Int.floor (v * 1000 + 1 / 2)).toNat / 100 % 10),
                     Nat.digitChar ((Int.floor (v * 1000 + 1 / 2)).toNat / 10 % 10),
                     Nat.digitChar ((Int.floor (v * 1000 + 1 / 2)).toNat % 10)], rfl, rfl, ?_⟩
  intro c hc
  replace hc : c ∈ [Nat.digitChar ((Int.floor (v * 1000 + 1 / 2)).toNat / 100 % 10),
                    Nat.digitChar ((Int.floor (v * 1000 + 1 / 2)).toNat / 10 % 10),
                    Nat.digitChar ((Int.floor (v * 1000 + 1 / 2)).toNat % 10)] := hc
  simp only [List.mem_cons, List.not_mem_nil, or_false] at hc
  rcases hc with rfl | rfl | rfl <;>
    exact digitChar_isDigit _ (Nat.mod_lt _ (by norm_num))

/-! Claims. -/

/-- C8: infer_distribution returns the prefix of the path's base name
before the first occurrence of the literal "_n", and the literal label
"unknown" when that substring is absent; in particular it maps
"random_n100000_seed1.bin" to "random" and "nodist.bin" to "unknown".
It is a total function, hence pure and deterministic with no failure
mode. -/
theorem claim_C8_infer_distribution (p : String) :
    (∀ i, findSubstr ['_', 'n'] (basenameChars p) = some i →
      occursAt ['_', 'n'] (basenameChars p) i ∧
      (∀ j, j < i → ¬ occursAt ['_', 'n'] (basenameChars p) j) ∧
      infer_distribution p = String.mk ((basenameChars p).take i)) ∧
    (findSubstr ['_', 'n'] (basenameChars p) = none →
      (∀ j, ¬ occursAt ['_', 'n'] (basenameChars p) j) ∧
      infer_distribution p = "unknown") ∧
    infer_distribution "random_n100000_seed1.bin" = "random" ∧
    infer_distribution "nodist.bin" = "unknown" := by
  refine ⟨?_, ?_, by decide, by decide⟩
  · intro i hi
    obtain ⟨h1, h2⟩ := findSubstr_some _ _ _ hi
    exact ⟨h1, h2, infer_distribution_of_some p i hi⟩
  · intro hn
    exact ⟨findSubstr_none _ _ hn, infer_distribution_of_none p hn⟩

/-- C8 witness: the first "_n" of "random_n100000_seed1.bin" sits at
index 6 and the inferred label is the prefix before it. -/
theorem claim_C8_witness :
    occursAt ['_', 'n'] (basenameChars "random_n100000_seed1.bin") 6 ∧
    (∀ j, j < 6 → ¬ occursAt ['_', 'n'] (basenameChars "random_n100000_seed1.bin") j) ∧
    infer_distribution "random_n100000_seed1.bin" =
      String.mk ((basenameChars "random_n100000_seed1.bin").take 6) :=
  (claim_C8_infer_distribution "random_n100000_seed1.bin").1 6 (by decide)

/-- C10: when the base file name begins with the literal "_n", the first
occurrence is at index 0, so infer_distribution returns the empty string
rather than the "unknown" fallback; the fallback fires only when "_n" is
absent entirely, so a recorded distribution field can be empty. -/
theorem claim_C10_leading_marker (p : String)
    (h : isPrefixList ['_', 'n'] (basenameChars p) = true) :
    infer_distribution p = "" ∧
    findSubstr ['_', 'n'] (basenameChars p) = some 0 ∧
    infer_distribution p ≠ "unknown" := by
  have hf : findSubstr ['_', 'n'] (basenameChars p) = some 0 := by
    cases hb : basenameChars p with
    | nil => rw [hb] at h; simp [isPrefixList] at h
    | cons c rest =>
      rw [hb] at h
      simp [findSubstr, h]
  have he : infer_distribution p = "" := by
    rw [infer_distribution_of_some p 0 hf]
    rfl
  exact ⟨he, hf, by rw [he]; decide⟩

/-- C10 witness: the dataset name "_n100.bin" gets the empty
distribution label. -/
theorem claim_C10_witness :
    infer_distribution "_n100.bin" = "" ∧
    findSubstr ['_', 'n'] (basenameChars "_n100.bin") = some 0 ∧
    infer_distribution "_n100.bin" ≠ "unknown" :=
  claim_C10_leading_marker "_n100.bin" (by decide)

/-- C2: K appends against an absent path produce exactly one header line
followed by exactly K data lines; appends against an existing file add
rows only, never a second header; each single call writes the header iff
the file is absent at the moment of that call. -/
theorem claim_C2_header_idempotent (rows : List (List String)) (h : rows ≠ [])
    (ls : List String) (rows2 : List (List String)) (row : List String) :
    appendAll none rows = some (headerLine :: rows.map joinComma) ∧
    (rows.map joinComma).length = rows.length ∧
    appendAll (some ls) rows2 = some (ls ++ rows2.map joinComma) ∧
    append_row none row = [headerLine, joinComma row] ∧
    (∀ lines, append_row (some lines) row = lines ++ [joinComma row]) := by
  obtain ⟨r0, rs, rfl⟩ := List.exists_cons_of_ne_nil h
  exact ⟨appendAll_none_cons r0 rs, by simp, appendAll_some _ _, rfl, fun lines => rfl⟩

/-- C2 witness: two appends to a fresh path give header plus two rows;
one append to an existing file appends a single row, no header. -/
theorem claim_C2_witness :
    appendAll none [["a"], ["b"]] = some (headerLine :: [["a"], ["b"]].map joinComma) ∧
    ([["a"], ["b"]].map joinComma).length = 2 ∧
    appendAll (some ["x"]) [["c"]] = some (["x"] ++ [["c"]].map joinComma) ∧
    append_row none ["r"] = [headerLine, joinComma ["r"]] ∧
    (∀ lines, append_row (some lines) ["r"] = lines ++ [joinComma ["r"]]) :=
  claim_C2_header_idempotent [["a"], ["b"]] (by decide) ["x"] [["c"]] ["r"]

/-- C3: the loader on a well-formed file (4-byte LE count n, exactly n*4
payload bytes) returns exactly n int32 values in file order; a missing
file or a header or payload shorter than declared fails with IOError;
any byte after the declared payload fails with FormatError. -/
theorem claim_C3_loader (path : String) (bytes : List Nat) :
    read_bin_int32_le path none = .error (.ioError ("Failed to open: " ++ path)) ∧
    (bytes.length < 4 →
      read_bin_int32_le path (some bytes) =
        .error (.ioError ("Failed to read header from: " ++ path))) ∧
    (4 ≤ bytes.length → bytes.length < 4 + bytesToNatLE (bytes.take 4) * 4 →
      read_bin_int32_le path (some bytes) =
        .error (.ioError ("Failed to read payload from: " ++ path))) ∧
    (4 + bytesToNatLE (bytes.take 4) * 4 < bytes.length →
      read_bin_int32_le path (some bytes) =
        .error (.formatError ("File has extra trailing bytes: " ++ path))) ∧
    (bytes.length = 4 + bytesToNatLE (bytes.take 4) * 4 →
      read_bin_int32_le path (some bytes) = .ok (decode_int32s (bytes.drop 4)) ∧
      (decode_int32s (bytes.drop 4)).length = bytesToNatLE (bytes.take 4) ∧
      (∀ i, i < bytesToNatLE (bytes.take 4) →
        (decode_int32s (bytes.drop 4))[i]? =
          some (toSigned32 (bytesToNatLE ((bytes.drop (4 + 4 * i)).take 4))))) := by
  refine ⟨rfl, ?_, ?_, ?_, ?_⟩
  · intro h
    simp only [read_bin_int32_le]
    rw [if_pos h]
  · intro h4 hshort
    have hc : ¬ bytes.length < 4 := by omega
    have hp : (bytes.drop 4).length < bytesToNatLE (bytes.take 4) * 4 := by
      rw [List.length_drop]
      omega
    simp only [read_bin_int32_le]
    rw [if_neg hc, if_pos hp]
  · intro hlong
    have hc : ¬ bytes.length < 4 := by omega
    have hp : ¬ (bytes.drop 4).length < bytesToNatLE (bytes.take 4) * 4 := by
      rw [List.length_drop]
      omega
    have ht : bytesToNatLE (bytes.take 4) * 4 < (bytes.drop 4).length := by
      rw [List.length_drop]
      omega
    simp only [read_bin_int32_le]
    rw [if_neg hc, if_neg hp, if_pos ht]
  · intro heq
    have hc : ¬ bytes.length < 4 := by omega
    have hp : ¬ (bytes.drop 4).length < bytesToNatLE (bytes.take 4) * 4 := by
      rw [List.length_drop]
      omega
    have ht : ¬ bytesToNatLE (bytes.take 4) * 4 < (bytes.drop 4).length := by
      rw [List.length_drop]
      omega
    refine ⟨?_, ?_, ?_⟩
    · simp only [read_bin_int32_le]
      rw [if_neg hc, if_neg hp, if_neg ht]
    · rw [decode_int32s_length, List.length_drop]
      omega
    · intro i hi
      have hb : 4 * (i + 1) ≤ (bytes.drop 4).length := by
        rw [List.length_drop]
        omega
      rw [decode_int32s_getElem? i (bytes.drop 4) hb, List.drop_drop]

/-- C3 witness: a well-formed file with n=2 loads to two ints in file
order (including a negative one), and each malformed shape fails with
the matching error. -/
theorem claim_C3_witness :
    read_bin_int32_le "p" (some [2, 0, 0, 0, 1, 0, 0, 0, 255, 255, 255, 255]) =
      .ok [1, -1] ∧
    read_bin_int32_le "p" (some [0, 0, 0]) =
      .error (.ioError "Failed to read header from: p") ∧
    read_bin_int32_le "p" (some [2, 0, 0, 0, 1, 0, 0, 0]) =
      .error (.ioError "Failed to read payload from: p") ∧
    read_bin_int32_le "p" (some [0, 0, 0, 0, 9]) =
      .error (.formatError "File has extra trailing bytes: p") := by
  refine ⟨?_, ?_, ?_, ?_⟩
  · exact ((claim_C3_loader "p" [2, 0, 0, 0, 1, 0, 0, 0, 255, 255, 255, 255]).2.2.2.2
      (by decide)).1
  · exact (claim_C3_loader "p" [0, 0, 0]).2.1 (by decide)
  · exact (claim_C3_loader "p" [2, 0, 0, 0, 1, 0, 0, 0]).2.2.1 (by decide) (by decide)
  · exact (claim_C3_loader "p" [0, 0, 0, 0, 9]).2.2.2.1 (by decide)

/-- C5: every recorded row is exactly the twelve fields timestamp_iso,
task, language, language_version, algo, dataset_file, distribution, n,
warmup_runs, rep_idx, time_ms, ok in that fixed order, comma-joined with
no quoting or escaping; time_ms is rendered fixed-point with exactly 3
decimal digits and ok as the literal lowercase token true or false. -/
theorem claim_C5_row_format (ts algo dataset dist : String) (n : Nat) (warmup : Int)
    (rep : Nat) (t : ℚ) (ok : Bool) (_ht : 0 ≤ t) :
    (mkRow ts algo dataset dist n warmup rep t ok).length = 12 ∧
    mkRow ts algo dataset dist n warmup rep t ok =
      [ts, "sort", "cpp", "c++20", algo, dataset, dist, toString n, toString warmup,
       toString rep, fmtFixed3 t, if ok then "true" else "false"] ∧
    joinComma (mkRow ts algo dataset dist n warmup rep t ok) =
      ts ++ "," ++ "sort" ++ "," ++ "cpp" ++ "," ++ "c++20" ++ "," ++ algo ++ "," ++ dataset ++
      "," ++ dist ++ "," ++ toString n ++ "," ++ toString warmup ++ "," ++ toString rep ++ "," ++
      fmtFixed3 t ++ "," ++ (if ok then "true" else "false") ∧
    ((if ok then "true" else "false") = "true" ↔ ok = true) ∧
    (∃ fr : String,
      fmtFixed3 t = toString ((Int.floor (t * 1000 + 1 / 2)).toNat / 1000) ++ "." ++ fr ∧
      fr.length = 3 ∧ ∀ c ∈ fr.toList, c.isDigit = true) := by
  refine ⟨rfl, rfl, rfl, ?_, fmtFixed3_shape t⟩
  cases ok <;> simp

/-- C5 witness: the row shape at concrete inputs, with 2.5 ms rendered
as 2.500. -/
theorem claim_C5_witness :
    (0 : ℚ) ≤ 5 / 2 ∧
    (mkRow "T" "builtin" "d.bin" "x" 2 5 0 (5 / 2) true).length = 12 ∧
    joinComma (mkRow "T" "builtin" "d.bin" "x" 2 5 0 (5 / 2) true) =
      "T,sort,cpp,c++20,builtin,d.bin,x,2,5,0,2.500,true" := by
  have h := claim_C5_row_format "T" "builtin" "d.bin" "x" 2 5 0 (5 / 2) true (by norm_num)
  have hfl : Int.floor ((5 : ℚ) / 2 * 1000 + 1 / 2) = 2500 := by
    rw [Int.floor_eq_iff]
    norm_num
  have hfmt : fmtFixed3 ((5 : ℚ) / 2) = "2.500" := by
    simp only [fmtFixed3, hfl]
    decide
  refine ⟨by norm_num, h.1, ?_⟩
  rw [h.2.2.1, hfmt]
  decide

/-- C1: under a parsed configuration with reps = R > 0, a loadable
dataset, and a writable log, the run prints exactly R measurement rows,
the k-th carrying rep_idx k (each value of 0..R-1 once, in increasing
order), while the warmup repetitions, whatever their count (including
zero), add sort calls but no emitted row. -/
theorem claim_C1_runner_emission (argv : List String) (o : Oracles)
    (initFile : Option (List String)) (a : Args) (values : List Int)
    (hp : parse_args argv = .ok a)
    (hl : read_bin_int32_le a.dataset o.fileBytes = .ok values)
    (hok : ∀ j, j < a.reps.toNat → o.outOk j = true) :
    0 < a.reps ∧
    (mainRun argv o initFile).stdoutLines =
      (List.range a.reps.toNat).map
        (fun k => joinComma (measuredRow a o (infer_distribution a.dataset) values.length values k)) ∧
    (mainRun argv o initFile).stdoutLines.length = a.reps.toNat ∧
    (∀ k, (measuredRow a o (infer_distribution a.dataset) values.length values k)[9]? =
      some (toString k)) ∧
    (mainRun argv o initFile).sortCalls.length = a.warmup.toNat + a.reps.toNat := by
  have hm := mainRun_success argv o initFile a values hp hl hok
  obtain ⟨-, -, hreps, -⟩ := parse_args_ok_inv argv a hp
  refine ⟨hreps, ?_, ?_, ?_, ?_⟩
  · rw [hm]
  · rw [hm]
    simp
  · intro k
    rfl
  · rw [hm]
    simp

/-- C1 witness: 2 warmups and 3 reps give 3 printed rows and 5 sort
calls; the row at rep 1 carries rep_idx 1. -/
theorem claim_C1_witness :
    0 < sampleArgs.reps ∧
    (mainRun sampleArgv sampleOracle none).stdoutLines.length = 3 ∧
    (mainRun sampleArgv sampleOracle none).sortCalls.length = 5 ∧
    (measuredRow sampleArgs sampleOracle (infer_distribution "x_n2.bin") 2 [5, 3] 1)[9]? =
      some "1" := by
  have h := claim_C1_runner_emission sampleArgv sampleOracle none sampleArgs [5, 3]
    (by decide) rfl (fun j hj => rfl)
  exact ⟨h.1, h.2.2.1, h.2.2.2.2, h.2.2.2.1 1⟩

/-- C7: every warmup and measured repetition hands the sort capability a
fresh full copy of the original loaded dataset (never a previously
sorted copy), and the in-memory dataset is still the loaded sequence
when the process ends. -/
theorem claim_C7_fresh_copies (argv : List String) (o : Oracles)
    (initFile : Option (List String)) (a : Args) (values : List Int)
    (hp : parse_args argv = .ok a)
    (hl : read_bin_int32_le a.dataset o.fileBytes = .ok values)
    (hok : ∀ j, j < a.reps.toNat → o.outOk j = true) :
    (mainRun argv o initFile).sortCalls =
      List.replicate (a.warmup.toNat + a.reps.toNat) values ∧
    (∀ c ∈ (mainRun argv o initFile).sortCalls, c = values) ∧
    (mainRun argv o initFile).finalValues = values := by
  have hm := mainRun_success argv o initFile a values hp hl hok
  rw [hm]
  refine ⟨rfl, ?_, rfl⟩
  intro c hc
  exact List.eq_of_mem_replicate hc

/-- C7 witness: all five sort calls of the sample run receive the loaded
dataset 5, 3, and it is intact at process end. -/
theorem claim_C7_witness :
    (mainRun sampleArgv sampleOracle none).sortCalls = List.replicate 5 [5, 3] ∧
    (mainRun sampleArgv sampleOracle none).finalValues = [5, 3] := by
  have h := claim_C7_fresh_copies sampleArgv sampleOracle none sampleArgs [5, 3]
    (by decide) rfl (fun j hj => rfl)
  exact ⟨h.1, h.2.2⟩

/-- C4: with validation enabled the recorded ok field is exactly the
end-to-end non-decreasing check of the sorted scratch copy; with
validation disabled it is true unconditionally; and a false outcome
neither halts the run nor changes the exit code: all repetitions are
still executed and recorded. -/
theorem claim_C4_validation_policy (argv : List String) (o : Oracles)
    (initFile : Option (List String)) (a : Args) (values : List Int)
    (hp : parse_args argv = .ok a)
    (hl : read_bin_int32_le a.dataset o.fileBytes = .ok values)
    (hok : ∀ j, j < a.reps.toNat → o.outOk j = true) :
    (mainRun argv o initFile).exitCode = 0 ∧
    (mainRun argv o initFile).stdoutLines.length = a.reps.toNat ∧
    (mainRun argv o initFile).stdoutLines =
      (List.range a.reps.toNat).map
        (fun k => joinComma (measuredRow a o (infer_distribution a.dataset) values.length values k)) ∧
    (∀ k, (measuredRow a o (infer_distribution a.dataset) values.length values k)[11]? =
      some (if a.validate then
              (if is_sorted_non_decreasing (o.sortFn values) then "true" else "false")
            else "true")) := by
  have hm := mainRun_success argv o initFile a values hp hl hok
  refine ⟨by rw [hm], by rw [hm]; simp, by rw [hm], ?_⟩
  intro k
  cases hv : a.validate <;> cases hs : is_sorted_non_decreasing (o.sortFn values) <;>
    simp [measuredRow, mkRow, hv, hs]

/-- C4 witness: with an identity stand-in for sort, the unsorted dataset
5, 3 yields ok false on every row, yet the run completes all 3 reps with
exit code 0; with --no-validate the same row carries ok true. -/
theorem claim_C4_witness :
    (mainRun sampleArgv sampleOracle none).exitCode = 0 ∧
    (mainRun sampleArgv sampleOracle none).stdoutLines.length = 3 ∧
    (measuredRow sampleArgs sampleOracle (infer_distribution "x_n2.bin") 2 [5, 3] 0)[11]? =
      some "false" ∧
    (measuredRow { sampleArgs with validate := false } sampleOracle
      (infer_distribution "x_n2.bin") 2 [5, 3] 0)[11]? = some "true" := by
  have h := claim_C4_validation_policy sampleArgv sampleOracle none sampleArgs [5, 3]
    (by decide) rfl (fun j hj => rfl)
  have h2 := claim_C4_validation_policy (sampleArgv ++ ["--no-validate"]) sampleOracle none
    { sampleArgs with validate := false } [5, 3] (by decide) rfl (fun j hj => rfl)
  exact ⟨h.1, h.2.1, h.2.2.2 0, h2.2.2.2 0⟩

theorem map_joinComma_map (f : Nat → List String) (l : List Nat) :
    List.map joinComma (List.map f l) = List.map (fun k => joinComma (f k)) l := by
  induction l with
  | nil => rfl
  | cons x xs ih => simp only [List.map_cons, ih]

/-- C9: each measured repetition prints to the console the very row it
appends to the log (the log is the initial content plus the printed
lines), and the console write precedes the durable append: a repetition
whose append fails has still echoed its row before the run aborts. -/
theorem claim_C9_console_echo (argv : List String) (o : Oracles)
    (initFile : Option (List String)) (a : Args) (values : List Int)
    (hp : parse_args argv = .ok a)
    (hl : read_bin_int32_le a.dataset o.fileBytes = .ok values) :
    ((∀ j, j < a.reps.toNat → o.outOk j = true) →
      (∀ ls, initFile = some ls →
        (mainRun argv o initFile).logFile =
          some (ls ++ (mainRun argv o initFile).stdoutLines)) ∧
      (initFile = none → 0 < a.reps.toNat →
        (mainRun argv o initFile).logFile =
          some (headerLine :: (mainRun argv o initFile).stdoutLines))) ∧
    (∀ k, k < a.reps.toNat → (∀ j, j < k → o.outOk j = true) → o.outOk k = false →
      (mainRun argv o initFile).exitCode = 1 ∧
      (mainRun argv o initFile).stdoutLines.length = k + 1 ∧
      (mainRun argv o initFile).stdoutLines[k]? =
        some (joinComma (measuredRow a o (infer_distribution a.dataset) values.length values k))) := by
  constructor
  · intro hok
    have hm := mainRun_success argv o initFile a values hp hl hok
    constructor
    · intro ls hls
      subst hls
      rw [hm]
      rw [appendAll_some, map_joinComma_map]
    · intro hnone hpos
      subst hnone
      rw [hm]
      obtain ⟨R2, hR⟩ : ∃ R2, a.reps.toNat = R2 + 1 := ⟨a.reps.toNat - 1, by omega⟩
      rw [hR, List.range_eq_range', List.range'_succ]
      simp only [List.map_cons]
      rw [appendAll_none_cons]
      simp only [List.map_cons, map_joinComma_map]
  · intro k hk hok hfail
    have hm := mainRun_appendFail argv o initFile a values k hp hl hk hok hfail
    rw [hm]
    refine ⟨rfl, by simp, ?_⟩
    simp [List.getElem?_map, List.getElem?_range, Nat.lt_succ_self]

/-- C9 witness: appending to an existing log mirrors the printed rows
after the old content; with the second append failing, the run stops
with exit code 1 after printing two rows, the failing rep included. -/
theorem claim_C9_witness :
    ((mainRun sampleArgv sampleOracle (some ["old"])).logFile =
      some (["old"] ++ (mainRun sampleArgv sampleOracle (some ["old"])).stdoutLines)) ∧
    (mainRun sampleArgv failOracle none).exitCode = 1 ∧
    (mainRun sampleArgv failOracle none).stdoutLines.length = 1 + 1 := by
  constructor
  · exact ((claim_C9_console_echo sampleArgv sampleOracle (some ["old"]) sampleArgs [5, 3]
      (by decide) rfl).1 (fun j hj => rfl)).1 ["old"] rfl
  · have h := (claim_C9_console_echo sampleArgv failOracle none sampleArgs [5, 3]
      (by decide) rfl).2 1 (by decide)
      (fun j hj => by
        have hj0 : j = 0 := by omega
        subst hj0
        rfl)
      rfl
    exact ⟨h.1, h.2.1⟩

/-- C6 counterexample: the invocation --dataset d.bin --warmup abc has
an invalid numeric flag value, yet the process exits with code 1 (the
stoi exception reaches the generic catch handler), not with code 2 as
the claim states. -/
theorem claim_C6_counterexample :
    (mainRun ["--dataset", "d.bin", "--warmup", "abc"] sampleOracle none).exitCode = 1 ∧
    ¬ (mainRun ["--dataset", "d.bin", "--warmup", "abc"] sampleOracle none).exitCode = 2 := by
  constructor
  · decide
  · decide

/-- C6 (amended): a missing --dataset, an unknown flag, a flag missing
its value, a negative warmup, a non-positive reps, or an algorithm other
than builtin each exit with code 2 before any dataset or log I/O, with
usage text on stderr for the first three and an explanatory message for
the rest; an invalid or out-of-range numeric flag value instead aborts
through the conversion-failure handler with exit code 1, likewise before
any I/O. -/
theorem claim_C6_amended (o : Oracles) (initFile : Option (List String)) :
    (∀ argv msgs, parse_args argv = .exit2 msgs →
      mainRun argv o initFile = ⟨2, [], msgs, initFile, [], []⟩) ∧
    (∀ argv, parse_args argv = .stoiFail →
      mainRun argv o initFile = ⟨1, [], ["Error: stoi"], initFile, [], []⟩) ∧
    parse_args [] = .exit2 ["--dataset is required", usageText] ∧
    parse_args ["--dataset", "d.bin", "--bogus"] = .exit2 ["Unknown arg: --bogus", usageText] ∧
    parse_args ["--dataset"] = .exit2 [usageText] ∧
    parse_args ["--dataset", "d.bin", "--warmup", "-1"] =
      .exit2 ["warmup must be >= 0 and reps must be > 0"] ∧
    parse_args ["--dataset", "d.bin", "--reps", "0"] =
      .exit2 ["warmup must be >= 0 and reps must be > 0"] ∧
    parse_args ["--dataset", "d.bin", "--algo", "quick"] =
      .exit2 ["only --algo builtin is supported right now"] ∧
    parse_args ["--dataset", "d.bin", "--warmup", "abc"] = .stoiFail ∧
    parse_args ["--dataset", "d.bin", "--reps", "99999999999"] = .stoiFail :=
  ⟨fun argv msgs hp => mainRun_exit2 argv o initFile msgs hp,
   fun argv hp => mainRun_stoiFail argv o initFile hp,
   by decide, by decide, by decide, by decide, by decide, by decide, by decide, by decide⟩

/-- C6 witness: an unsupported algorithm exits 2 with its message and
the log untouched; an invalid warmup value exits 1 through the catch
handler, also with the log untouched. -/
theorem claim_C6_amended_witness :
    mainRun ["--dataset", "d.bin", "--algo", "quick"] sampleOracle none =
      ⟨2, [], ["only --algo builtin is supported right now"], none, [], []⟩ ∧
    mainRun ["--dataset", "d.bin", "--warmup", "abc"] sampleOracle none =
      ⟨1, [], ["Error: stoi"], none, [], []⟩ := by
  have h := claim_C6_amended sampleOracle none
  exact ⟨h.1 _ _ (by decide), h.2.1 _ (by decide)⟩

end BenchCpp
